import Mathlib

/-!
Verification of the layered permission-decision engine in
`plugins/safety-judge/hooks/safety_judge.py`.

The Python source is shallowly embedded: strings are Lean `String`s
(manipulated through their underlying `List Char`), Python `re` patterns are
embedded as terms of a small regular-expression AST whose matcher follows
Python's semantics for the constructs actually used (`.` does not match a
newline; a trailing `$` also matches just before a final newline; `re.search`
is an unanchored scan; `re.IGNORECASE` is modelled per character class),
and the remote LLM judge is modelled as an oracle record carrying its
availability flag and its response function.
-/

/-- Regular-expression AST covering the constructs used by the hook:
character classes (literals, `\s`, `.`, `[a-z]`), concatenation,
alternation and Kleene star. -/
inductive RE where
  | emp : RE
  | eps : RE
  | cls : (Char → Bool) → RE
  | seq : RE → RE → RE
  | alt : RE → RE → RE
  | star : RE → RE

namespace RE

/-- Does the regex accept the empty string? -/
def nullable : RE → Bool
  | emp => false
  | eps => true
  | cls _ => false
  | seq a b => a.nullable && b.nullable
  | alt a b => a.nullable || b.nullable
  | star _ => true

/-- Smart sequencing that collapses the empty language and the empty word. -/
def seqS : RE → RE → RE
  | emp, _ => emp
  | eps, b => b
  | a, b =>
    match b with
    | emp => emp
    | eps => a
    | _ => seq a b

/-- Smart alternation that collapses the empty language. -/
def altS : RE → RE → RE
  | emp, b => b
  | a, b =>
    match b with
    | emp => a
    | _ => alt a b

/-- Brzozowski derivative with respect to one character. -/
def deriv : RE → Char → RE
  | emp, _ => emp
  | eps, _ => emp
  | cls p, c => cond (p c) eps emp
  | seq a b, c =>
    cond a.nullable (altS (seqS (a.deriv c) b) (b.deriv c)) (seqS (a.deriv c) b)
  | alt a b, c => altS (a.deriv c) (b.deriv c)
  | star a, c => seqS (a.deriv c) (star a)

/-- Anchored match of a regex against a whole character list. -/
def rmatch (r : RE) (s : List Char) : Bool :=
  (s.foldl deriv r).nullable

/-- Class matching any character at all (used when scanning for a match
start position, which Python's `re.search` does regardless of newlines). -/
def anyc : RE := cls (fun _ => true)

/-- Python `.` without `re.DOTALL`: any character except a newline. -/
def dot : RE := cls (fun c => c != '\n')

/-- Python `\s` (ASCII portion): space, tab, newline, carriage return,
vertical tab, form feed. -/
def ws : RE := cls (fun c =>
  c == ' ' || c == '\t' || c == '\n' || c == '\r' || c == '\x0b' || c == '\x0c')

/-- One-or-more repetition, Python `+`. -/
def plus (r : RE) : RE := seq r (star r)

/-- A literal character, case-sensitively. -/
def chr (c : Char) : RE := cls (fun x => x == c)

/-- A literal character under `re.IGNORECASE`; the pattern character is
written in lowercase and the subject character is folded to lowercase. -/
def chrCI (c : Char) : RE := cls (fun x => x.toLower == c)

/-- A literal string, case-sensitively. -/
def str (s : String) : RE := s.data.foldr (fun c r => seq (chr c) r) eps

/-- A literal string under `re.IGNORECASE` (written in lowercase). -/
def strCI (s : String) : RE := s.data.foldr (fun c r => seq (chrCI c) r) eps

/-- The class `[a-z]` under `re.IGNORECASE`. -/
def azClass : RE := cls (fun c => ('a' ≤ c.toLower) && (c.toLower ≤ 'z'))

/-- Python `re.search`: some substring (equivalently, some suffix starting
anywhere) matches the pattern. -/
def search (r : RE) (s : List Char) : Bool :=
  rmatch (seq (star anyc) (seq r (star anyc))) s

/-- Python `re.search` for a pattern ending with the `$` anchor: the match
must end at the end of the string, or just before a final newline. -/
def searchEnd (r : RE) (s : List Char) : Bool :=
  rmatch (seq (star anyc) r) s ||
    (match s.reverse with
     | c :: rest => c == '\n' && rmatch (seq (star anyc) r) rest.reverse
     | [] => false)

end RE

namespace RegexDenylist

/-- The hook's `RegexDenylist.PATTERNS`, embedded as regex terms: each entry
is the regex, whether the Python pattern carried a trailing `$` anchor, and
the human-readable reason.  All searches run under `re.IGNORECASE`, so
letters use the case-insensitive constructors. -/
def PATTERNS : List (RE × Bool × String) :=
  [ (RE.seq (RE.strCI "rm") (RE.seq (RE.plus RE.ws)
      (RE.seq (RE.strCI "-rf") (RE.seq (RE.plus RE.ws) (RE.chr '/')))),
     false, "Recursive delete from root"),
    (RE.seq (RE.strCI "rm") (RE.seq (RE.plus RE.ws)
      (RE.seq (RE.strCI "-rf") (RE.seq (RE.plus RE.ws) (RE.chr '~')))),
     false, "Recursive delete from home"),
    (RE.seq (RE.strCI "rm") (RE.seq (RE.plus RE.ws)
      (RE.seq (RE.strCI "-rf") (RE.seq (RE.plus RE.ws)
        (RE.seq (RE.chr '.') (RE.star RE.ws))))),
     true, "Recursive delete current directory"),
    (RE.seq (RE.strCI "drop") (RE.seq (RE.plus RE.ws) (RE.strCI "database")),
     false, "SQL database drop"),
    (RE.seq (RE.strCI "truncate") (RE.seq (RE.plus RE.ws) (RE.strCI "table")),
     false, "SQL table truncation"),
    (RE.seq (RE.str ":()\x7b") (RE.seq (RE.star RE.dot)
      (RE.seq (RE.str ":|:&") (RE.seq (RE.star RE.dot) (RE.str "\x7d;:")))),
     false, "Fork bomb"),
    (RE.seq (RE.chr '>') (RE.seq (RE.star RE.ws)
      (RE.seq (RE.strCI "/dev/sd") RE.azClass)),
     false, "Direct disk write"),
    (RE.seq (RE.strCI "mkfs") (RE.chr '.'),
     false, "Filesystem format"),
    (RE.seq (RE.strCI "dd") (RE.seq (RE.plus RE.ws)
      (RE.seq (RE.star RE.dot) (RE.strCI "of=/dev/"))),
     false, "Raw disk overwrite") ]

/-- The hook's `RegexDenylist.check`: scan the command against each pattern
in order and return the first matching reason, `none` if no pattern hits. -/
def check (command : String) : Option String :=
  PATTERNS.findSome? fun entry =>
    let hit := if entry.2.1 then RE.searchEnd entry.1 command.data
               else RE.search entry.1 command.data
    if hit then some entry.2.2 else none

end RegexDenylist

example : RegexDenylist.check "rm -rf /" = some "Recursive delete from root" := by decide
example : RegexDenylist.check "git status" = none := by decide
example : RegexDenylist.check "sudo RM   -RF   ~" = some "Recursive delete from home" := by decide
example : RegexDenylist.check "rm -rf ." = some "Recursive delete current directory" := by decide
example : RegexDenylist.check "rm -rf . && ls" = none := by decide
example : RegexDenylist.check "dd if=x of=/dev/sda" = some "Raw disk overwrite" := by decide
example : RegexDenylist.check ":()\x7b :|:& \x7d;:" = some "Fork bomb" := by decide

/-! ## Bash permission-pattern matching

`PermissionMatcher._bash_pattern_matches` escapes every pattern character
except `*`, which becomes `.*`, and anchors the result with `^...$`.  The
resulting language is glob matching where `*` stands for a run of
non-newline characters, with Python's `$` also accepting a single trailing
newline.  We embed the translated pattern as a token list. -/

/-- One token of a translated Bash permission pattern: a wildcard (`.*`)
or one escaped literal character. -/
inductive GTok where
  | star : GTok
  | lit : Char → GTok
deriving DecidableEq

/-- Translate the pattern characters: `*` becomes a wildcard, every other
character a literal (Python `re.escape` makes it literal). -/
def globTokens : List Char → List GTok
  | [] => []
  | c :: t => (if c = '*' then GTok.star else GTok.lit c) :: globTokens t

/-- All suffixes of `s` obtained by deleting a (possibly empty) prefix of
non-newline characters — exactly the ways Python's `.*` can advance. -/
def suffixesNoNL : List Char → List (List Char)
  | [] => [[]]
  | c :: t => (c :: t) :: (if c = '\n' then [] else suffixesNoNL t)

/-- Anchored glob matching, the language of `^` + translation + `$` minus
the trailing-newline allowance of `$`. -/
def globMatch : List GTok → List Char → Bool
  | [], s => s.isEmpty
  | GTok.lit c :: ps, s =>
    match s with
    | [] => false
    | x :: xs => x == c && globMatch ps xs
  | GTok.star :: ps, s => (suffixesNoNL s).any fun s2 => globMatch ps s2

/-- The trailing-newline allowance of Python's `$`: if the command ends in
a newline, the pattern may also match the command without it. -/
def globEndNL (toks : List GTok) (cmd : List Char) : Bool :=
  match cmd.reverse with
  | c :: rest => c == '\n' && globMatch toks rest.reverse
  | [] => false

namespace PermissionMatcher

/-- The hook's `_normalize_bash_pattern`: rewrite the deprecated colon form
`prefix:*` to `prefix *`.  Python matches `^(.+?):\*$` where `.` excludes
newlines, so the rewrite fires exactly when the pattern ends in `:*` with a
nonempty, newline-free part before it. -/
def normalize_bash_pattern (p : List Char) : List Char :=
  match p.reverse with
  | c1 :: c2 :: rest =>
    if c1 = '*' ∧ c2 = ':' ∧ rest ≠ [] ∧ rest.all (fun c => c ≠ '\n') then
      rest.reverse ++ [' ', '*']
    else p
  | _ => p

/-- The hook's `_bash_pattern_matches` on character lists: normalize the
colon form, special-case the bare `*` pattern, then run the anchored
glob translation with Python's `re.match` semantics. -/
def bash_pattern_matches_list (command pattern : List Char) : Bool :=
  let p := normalize_bash_pattern pattern
  if p = ['*'] then true
  else
    let toks := globTokens p
    globMatch toks command || globEndNL toks command

/-- The hook's `_bash_pattern_matches` (argument order as in the source:
command first, pattern second). -/
def bash_pattern_matches (command pattern : String) : Bool :=
  bash_pattern_matches_list command.data pattern.data

end PermissionMatcher

example : PermissionMatcher.bash_pattern_matches "ls -la" "ls *" = true := by decide
example : PermissionMatcher.bash_pattern_matches "lsof" "ls *" = false := by decide
example : PermissionMatcher.bash_pattern_matches "lsof" "ls*" = true := by decide
example : PermissionMatcher.bash_pattern_matches "ls -la" "ls*" = true := by decide
example : PermissionMatcher.bash_pattern_matches "git status" "git:*" = true := by decide
example : PermissionMatcher.bash_pattern_matches "ls a\nb" "ls *" = false := by decide
example : PermissionMatcher.bash_pattern_matches "ls a\n" "ls *" = true := by decide
example : PermissionMatcher.bash_pattern_matches "anything\nat all" "*" = true := by decide
example : PermissionMatcher.bash_pattern_matches "" "" = true := by decide
example : PermissionMatcher.bash_pattern_matches "x" "" = false := by decide
example : PermissionMatcher.bash_pattern_matches "git status" "git push *" = false := by decide

/-! ## String helpers used by the rule parser and matchers -/

/-- Python `str.strip` whitespace (ASCII portion). -/
def pyWS (c : Char) : Bool :=
  c == ' ' || c == '\t' || c == '\n' || c == '\r' || c == '\x0b' || c == '\x0c'

/-- Python `str.strip`: drop leading and trailing whitespace. -/
def trimChars (l : List Char) : List Char :=
  ((l.dropWhile pyWS).reverse.dropWhile pyWS).reverse

/-- Python `\w` (ASCII portion): letters, digits, underscore. -/
def isWordChar (c : Char) : Bool := c.isAlpha || c.isDigit || c == '_'

/-- Does the first list occur as a prefix of the second? -/
def startsWithChars : List Char → List Char → Bool
  | [], _ => true
  | _ :: _, [] => false
  | c :: p, x :: l => c == x && startsWithChars p l

/-- Python's `needle in haystack`: substring containment. -/
def containsChars (needle : List Char) : List Char → Bool
  | [] => needle.isEmpty
  | c :: t => startsWithChars needle (c :: t) || containsChars needle t

/-- `os.path.basename` on POSIX: everything after the last slash. -/
def basenameStr (s : String) : String :=
  ⟨(s.data.reverse.takeWhile (fun c => c ≠ '/')).reverse⟩

namespace PermissionMatcher

/-- The hook's `parse_rule`: strip the rule, read the leading `\w+` tool
name, then an optional parenthesised pattern running to the last closing
parenthesis (the regex group `(.*)` is greedy and `re.DOTALL` is set).
Strings the regex rejects are returned whole as a tool name with no
pattern. -/
def parse_rule (rule : String) : String × Option String :=
  let l := trimChars rule.data
  let t := l.takeWhile isWordChar
  let r := l.dropWhile isWordChar
  if t.isEmpty then (⟨l⟩, none)
  else if r.isEmpty then (⟨t⟩, none)
  else
    match r with
    | '(' :: rest =>
      match rest.reverse with
      | ')' :: mid => (⟨t⟩, some ⟨mid.reverse⟩)
      | _ => (⟨l⟩, none)
    | _ => (⟨l⟩, none)

end PermissionMatcher

example : PermissionMatcher.parse_rule "Bash" = ("Bash", none) := by decide
example : PermissionMatcher.parse_rule "Bash(git *)" = ("Bash", some "git *") := by decide
example : PermissionMatcher.parse_rule "  Bash(ls *)  " = ("Bash", some "ls *") := by decide
example : PermissionMatcher.parse_rule "Bash(a(b)c)" = ("Bash", some "a(b)c") := by decide
example : PermissionMatcher.parse_rule "Bash()" = ("Bash", some "") := by decide
example : PermissionMatcher.parse_rule "Bash (x)" = ("Bash (x)", none) := by decide
example : PermissionMatcher.parse_rule "Bash(x))" = ("Bash", some "x)") := by decide

/-! ## `fnmatch` glob matching for file-path tools

Python's `fnmatch.fnmatch` on POSIX translates the pattern to a regex with
`(?s:...)\Z`: `*` matches any characters (newlines included), `?` one
character, `[...]` a character class with ranges and `!` negation; an
unterminated `[` is a literal. -/

/-- Membership in an `fnmatch` character-class body (ranges supported,
a trailing `-` is a literal). -/
def inFnClass : List Char → Char → Bool
  | a :: '-' :: b :: rest, c => (a ≤ c && c ≤ b) || inFnClass rest c
  | a :: rest, c => c == a || inFnClass rest c
  | [], _ => false

/-- Scan an `fnmatch` class body for its closing bracket, returning the
body and the remainder; `none` when the bracket never closes. -/
def fnFindClose : List Char → Option (List Char × List Char)
  | [] => none
  | ']' :: t => some ([], t)
  | c :: t => (fnFindClose t).map fun br => (c :: br.1, br.2)

/-- Split a class starting just after `[` into (negated, body, rest):
a leading `!` negates, and a `]` right after `[` or `[!` is literal. -/
def fnSplitClass (l : List Char) : Option (Bool × List Char × List Char) :=
  let neg := match l with
    | '!' :: _ => true
    | _ => false
  let l1 := match l with
    | '!' :: t => t
    | _ => l
  match l1 with
  | ']' :: t =>
    match fnFindClose t with
    | some br => some (neg, ']' :: br.1, br.2)
    | none => none
  | _ =>
    match fnFindClose l1 with
    | some br => some (neg, br.1, br.2)
    | none => none

/-- Compile an `fnmatch` pattern to a regex (fuel-driven recursion; the
fuel is the pattern length, and every step consumes at least one
character). -/
def fnmatchRE : Nat → List Char → RE
  | _, [] => RE.eps
  | 0, _ :: _ => RE.eps
  | Nat.succ n, c :: rest =>
    if c = '*' then RE.seq (RE.star RE.anyc) (fnmatchRE n rest)
    else if c = '?' then RE.seq RE.anyc (fnmatchRE n rest)
    else if c = '[' then
      match fnSplitClass rest with
      | some spl =>
        RE.seq (RE.cls fun x => xor (inFnClass spl.2.1 x) spl.1)
          (fnmatchRE n spl.2.2)
      | none => RE.seq (RE.chr '[') (fnmatchRE n rest)
    else RE.seq (RE.chr c) (fnmatchRE n rest)

/-- Python `fnmatch.fnmatch(name, pattern)` on POSIX (case-sensitive). -/
def fnmatchB (name pattern : String) : Bool :=
  RE.rmatch (fnmatchRE pattern.data.length pattern.data) name.data

example : fnmatchB "src/app.py" "*.py" = true := by decide
example : fnmatchB ".env" ".env" = true := by decide
example : fnmatchB "a/b.txt" "*.txt" = true := by decide
example : fnmatchB "b.txt" "a[ab].txt" = false := by decide
example : fnmatchB "b.txt" "[ab].txt" = true := by decide
example : fnmatchB "c.txt" "[!ab].txt" = true := by decide
example : fnmatchB "b.txt" "[!ab].txt" = false := by decide

/-! ## Tool calls and rule matching -/

/-- The tool-input payload: the free-form mapping of the hook input,
restricted to the keys the engine reads (`none` models an absent key). -/
structure ToolInput where
  command : Option String := none
  url : Option String := none
  file_path : Option String := none
  path : Option String := none
  content : Option String := none
  new_source : Option String := none

namespace PermissionMatcher

/-- The hook's `matches_rule`: tool mismatch short-circuits; a missing
pattern matches every call of the tool; otherwise dispatch on the tool —
Bash commands use the shell-glob matcher, WebFetch uses `domain:` substring
containment over the whole URL, WebSearch always matches, the file-path
tools use `fnmatch` against the path and its basename, and any other tool
with a pattern never matches. -/
def matches_rule (tool_name : String) (tool_input : ToolInput) (rule : String) : Bool :=
  let parsed := parse_rule rule
  if parsed.1 = tool_name then
    match parsed.2 with
    | none => true
    | some pat =>
      if tool_name = "Bash" then
        bash_pattern_matches (tool_input.command.getD "") pat
      else if tool_name = "WebFetch" then
        if startsWithChars "domain:".data pat.data then
          containsChars (pat.data.drop 7) (tool_input.url.getD "").data
        else false
      else if tool_name = "WebSearch" then true
      else if tool_name = "Read" ∨ tool_name = "Edit" ∨ tool_name = "Write"
           ∨ tool_name = "Glob" ∨ tool_name = "Grep" then
        let fp := match tool_input.file_path with
          | some s => s
          | none => tool_input.path.getD ""
        if fp = "" ∨ pat = "" then false
        else fnmatchB fp pat || fnmatchB (basenameStr fp) pat
      else false
  else false

end PermissionMatcher

example : PermissionMatcher.matches_rule "Bash" { command := some "git status" } "Bash(git *)" = true := by decide
example : PermissionMatcher.matches_rule "Bash" { command := some "git status" } "Edit(git *)" = false := by decide
example : PermissionMatcher.matches_rule "WebFetch" { url := some "https://github.com/foo/bar" } "WebFetch(domain:github.com)" = true := by decide
example : PermissionMatcher.matches_rule "WebFetch" { url := some "https://evil.com/exfil" } "WebFetch(domain:github.com)" = false := by decide
example : PermissionMatcher.matches_rule "WebSearch" {} "WebSearch(foo)" = true := by decide
example : PermissionMatcher.matches_rule "NotebookEdit" {} "NotebookEdit(x)" = false := by decide
example : PermissionMatcher.matches_rule "NotebookEdit" {} "NotebookEdit" = true := by decide
example : PermissionMatcher.matches_rule "Read" { file_path := some "/home/u/.env" } "Read(.env)" = true := by decide

/-! ## Settings loading and merging -/

/-- The `permissions` object contributed by one settings document; a
missing key contributes an empty array. -/
structure SettingsDoc where
  allow : List String := []
  deny : List String := []
  ask : List String := []
deriving DecidableEq

/-- A merged policy: the three rule buckets. -/
structure Permissions where
  allow : List String := []
  deny : List String := []
  ask : List String := []
deriving DecidableEq

namespace SettingsLoader

/-- The hook's `load_permissions` merge: the documents are given in the
priority order produced by `find_settings_files` (highest first; the file
discovery itself is I/O and is modelled by this explicit list).  The source
iterates the files in reverse and prepends each document's arrays, so
higher-priority rules end up first in each bucket. -/
def load_permissions (docs : List SettingsDoc) : Permissions :=
  docs.reverse.foldl
    (fun merged doc =>
      { allow := doc.allow ++ merged.allow
        deny := doc.deny ++ merged.deny
        ask := doc.ask ++ merged.ask })
    {}

end SettingsLoader

/-! ## The LLM judge and the decision engine -/

/-- The hook's `LLMJudge`, modelled as an oracle: `available` reflects
whether a client exists, and `judge` gives the `(is_safe, reason,
risk_level)` triple the remote call would produce for a given tool call
(the decision engine only calls it when `available` is true). -/
structure LLMJudge where
  available : Bool
  judge : String → ToolInput → Bool × String × String

/-- The hook's `enforce_permissions`: regex denylist (Bash only), then deny
rules, then allow rules (softened to `ask` when the available judge flags
the call unsafe), then ask rules, then the default `ask`.  The settings and
judge, defaulted from the environment in the source, are explicit
parameters here. -/
def enforce_permissions (tool_name : String) (tool_input : ToolInput)
    (permissions : Permissions) (llm_judge : LLMJudge) : String × String :=
  let denylistHit : Option String :=
    if tool_name = "Bash" then RegexDenylist.check (tool_input.command.getD "")
    else none
  match denylistHit with
  | some danger => ("deny", "Blocked by safety denylist: " ++ danger)
  | none =>
    match permissions.deny.find? (PermissionMatcher.matches_rule tool_name tool_input) with
    | some rule => ("deny", "Blocked by deny rule: " ++ rule)
    | none =>
      match permissions.allow.find? (PermissionMatcher.matches_rule tool_name tool_input) with
      | some rule =>
        if llm_judge.available then
          let v := llm_judge.judge tool_name tool_input
          if v.1 then ("allow", "Approved by allow rule: " ++ rule)
          else ("ask", "LLM Judge flagged (" ++ v.2.2 ++ " risk): " ++ v.2.1)
        else ("allow", "Approved by allow rule: " ++ rule)
      | none =>
        match permissions.ask.find? (PermissionMatcher.matches_rule tool_name tool_input) with
        | some rule => ("ask", "Requires approval per ask rule: " ++ rule)
        | none => ("ask", "No matching permission rule (default: ask)")

/-! ## Content Safety Evaluator (spec-modelled)

The repository's test suite exercises a content-safety escalation for
`Write` and `NotebookEdit` (`TestWriteToolSafety`, `TestNotebookEditSafety`)
that the inspected hook source does not contain; the spec records it as the
Content Safety Evaluator (§4.5) and as step 3a of the decision engine
(§4.7).  The definitions below model that missing component from the
spec's words. -/

/-- Modelled from the spec: the file-extension allowlist for "script files
by extension" (§4.5); the exact set is an implementation decision (§9), so
a small set consistent with the test suite (`.sh` and `.py` scanned,
`.txt` not) is used. -/
def scriptExtensions : List String := ["sh", "bash", "zsh", "py"]

/-- File extension: the characters after the last dot of the basename,
empty when the basename has no dot. -/
def fileExtension (p : String) : String :=
  let b := (basenameStr p).data
  if b.contains '.' then ⟨(b.reverse.takeWhile (fun c => c ≠ '.')).reverse⟩
  else ""

/-- Modelled from the spec: is the written file executable or
interpretable content, judged by its extension (§4.5)? -/
def isScriptPath (p : String) : Bool :=
  scriptExtensions.contains (fileExtension p)

/-- Modelled from the spec: the Content Safety Evaluator's scan — "the
same catastrophic patterns as the Denylist Scanner plus
command-substitution/piping-to-shell idioms (e.g. base64-decode-then-
execute, command substitution wrapping a destructive command)" (§4.5). -/
def dangerousContent (content : String) : Bool :=
  (RegexDenylist.check content).isSome ||
    (containsChars "$(".data content.data &&
      (containsChars "curl".data content.data || containsChars "wget".data content.data)) ||
    containsChars "| sh".data content.data ||
    containsChars "| bash".data content.data ||
    containsChars "base64 -d".data content.data ||
    containsChars "base64 --decode".data content.data

/-- Modelled from the spec: does the Content Safety Evaluator flag this
call (§4.5)?  `Write` calls are scanned when the target file is a script
by extension; `NotebookEdit` cell sources are always scanned; other tools
bypass content scanning. -/
def content_flags (tool_name : String) (tool_input : ToolInput) : Bool :=
  if tool_name = "Write" then
    isScriptPath (tool_input.file_path.getD "") &&
      dangerousContent (tool_input.content.getD "")
  else if tool_name = "NotebookEdit" then
    dangerousContent (tool_input.new_source.getD "")
  else false

/-- Modelled from the spec: the full decision pipeline of §4.7 including
step 3a — on an allow-rule match, a Content Safety Evaluator hit escalates
to `ask` before the Semantic Judge is consulted.  The inspected hook
source omits this step; everything else follows `enforce_permissions`. -/
def enforce_permissions_spec (tool_name : String) (tool_input : ToolInput)
    (permissions : Permissions) (llm_judge : LLMJudge) : String × String :=
  let denylistHit : Option String :=
    if tool_name = "Bash" then RegexDenylist.check (tool_input.command.getD "")
    else none
  match denylistHit with
  | some danger => ("deny", "Blocked by safety denylist: " ++ danger)
  | none =>
    match permissions.deny.find? (PermissionMatcher.matches_rule tool_name tool_input) with
    | some rule => ("deny", "Blocked by deny rule: " ++ rule)
    | none =>
      match permissions.allow.find? (PermissionMatcher.matches_rule tool_name tool_input) with
      | some rule =>
        if content_flags tool_name tool_input then
          ("ask", "Suspicious content pattern detected in written content")
        else if llm_judge.available then
          let v := llm_judge.judge tool_name tool_input
          if v.1 then ("allow", "Approved by allow rule: " ++ rule)
          else ("ask", "LLM Judge flagged (" ++ v.2.2 ++ " risk): " ++ v.2.1)
        else ("allow", "Approved by allow rule: " ++ rule)
      | none =>
        match permissions.ask.find? (PermissionMatcher.matches_rule tool_name tool_input) with
        | some rule => ("ask", "Requires approval per ask rule: " ++ rule)
        | none => ("ask", "No matching permission rule (default: ask)")

/-- The remainder of a character list after the first occurrence of the
scheme separator `://`. -/
def afterSchemeSep : List Char → List Char
  | [] => []
  | c :: t =>
    if startsWithChars "://".data (c :: t) then t.drop 2
    else afterSchemeSep t

/-- The host component of a URL as the spec's words describe it ("the
requested URL's host", §4.2): the segment after the scheme separator
`://` (or the start, if there is none) up to the first `/`, `?` or `#`.
This definition follows the spec, not the source, and exists to compare
the spec's WebFetch matching law against the source's. -/
def spec_url_host (url : String) : String :=
  let l := url.data
  let rest := if containsChars "://".data l then afterSchemeSep l else l
  ⟨rest.takeWhile (fun c => !(c == '/' || c == '?' || c == '#'))⟩

example : spec_url_host "https://github.com/foo/bar" = "github.com" := by decide
example : spec_url_host "https://evil.com/github.com" = "evil.com" := by decide

/-! ## Shared helper lemmas -/

/-- If no element satisfies the predicate, `find?` returns `none`. -/
theorem find_none_of_all_false {α : Type} (l : List α) (p : α → Bool)
    (h : ∀ x ∈ l, p x = false) : l.find? p = none := by
  rw [List.find?_eq_none]
  intro x hx
  simp [h x hx]

/-- If some element satisfies the predicate, `find?` returns something. -/
theorem find_some_of_exists {α : Type} (l : List α) (p : α → Bool)
    (h : ∃ x ∈ l, p x = true) : ∃ y, l.find? p = some y := by
  induction l with
  | nil => simp at h
  | cons a t ih =>
    rcases h with ⟨x, hx, hpx⟩
    rcases List.mem_cons.mp hx with rfl | hmem
    · exact ⟨x, by simp [List.find?, hpx]⟩
    · by_cases hpa : p a = true
      · exact ⟨a, by simp [List.find?, hpa]⟩
      · rcases ih ⟨x, hmem, hpx⟩ with ⟨y, hy⟩
        have hpa2 : p a = false := by
          cases hh : p a
          · rfl
          · exact absurd hh hpa
        exact ⟨y, by simp [List.find?, hpa2, hy]⟩

/-! ## Claim theorems -/

/-- C1: for every Bash tool call whose command matches one of the fixed
catastrophic denylist patterns, `enforce_permissions` returns the verdict
`deny` with the denylist reason, regardless of the permission rules in the
policy (in particular even when an allow rule such as `Bash(*)` matches). -/
theorem denylist_match_always_denies
    (input : ToolInput) (perms : Permissions) (judge : LLMJudge) (danger : String)
    (h : RegexDenylist.check (input.command.getD "") = some danger) :
    enforce_permissions "Bash" input perms judge =
      ("deny", "Blocked by safety denylist: " ++ danger) := by
  simp [enforce_permissions, h]

/-- Witness for C1: command `rm -rf /` is denied even under `Bash(*)`. -/
theorem denylist_match_always_denies_witness :
    RegexDenylist.check "rm -rf /" = some "Recursive delete from root" ∧
    enforce_permissions "Bash" { command := some "rm -rf /" }
        { allow := ["Bash(*)"] } ⟨true, fun _ _ => (true, "ok", "low")⟩ =
      ("deny", "Blocked by safety denylist: Recursive delete from root") :=
  ⟨by decide,
   denylist_match_always_denies { command := some "rm -rf /" }
     { allow := ["Bash(*)"] } ⟨true, fun _ _ => (true, "ok", "low")⟩
     "Recursive delete from root" (by decide)⟩

/-- C5: for every call that is not denylist-blocked (its tool is not Bash,
or its command passes the denylist), if some deny rule matches then
`enforce_permissions` returns `deny`, even when allow rules also match. -/
theorem deny_rule_overrides_allow
    (tool_name : String) (input : ToolInput) (perms : Permissions) (judge : LLMJudge)
    (hden : tool_name = "Bash" → RegexDenylist.check (input.command.getD "") = none)
    (hdeny : ∃ r ∈ perms.deny, PermissionMatcher.matches_rule tool_name input r = true) :
    (enforce_permissions tool_name input perms judge).1 = "deny" := by
  have h1 : (if tool_name = "Bash"
      then RegexDenylist.check (input.command.getD "") else none) = none := by
    by_cases h : tool_name = "Bash" <;> simp [h, hden]
  rcases find_some_of_exists _ _ hdeny with ⟨y, hy⟩
  simp [enforce_permissions, h1, hy]

/-- Witness for C5: a deny rule on `curl` wins over an allow-all rule. -/
theorem deny_rule_overrides_allow_witness :
    (∃ r ∈ ["Bash(curl *)"],
      PermissionMatcher.matches_rule "Bash" { command := some "curl https://example.com" } r = true) ∧
    (enforce_permissions "Bash" { command := some "curl https://example.com" }
        { allow := ["Bash(*)"], deny := ["Bash(curl *)"] }
        ⟨true, fun _ _ => (true, "ok", "low")⟩).1 = "deny" :=
  ⟨by decide,
   deny_rule_overrides_allow "Bash" { command := some "curl https://example.com" }
     { allow := ["Bash(*)"], deny := ["Bash(curl *)"] }
     ⟨true, fun _ _ => (true, "ok", "low")⟩ (fun _ => by decide) (by decide)⟩

/-- C4: for every call that passes the denylist and matches no deny rule
but matches some allow rule, an available LLM judge that classifies the
call as unsafe makes `enforce_permissions` return `ask`, never `deny`. -/
theorem judge_unsafe_on_allow_yields_ask
    (tool_name : String) (input : ToolInput) (perms : Permissions) (judge : LLMJudge)
    (hden : tool_name = "Bash" → RegexDenylist.check (input.command.getD "") = none)
    (hdeny : ∀ r ∈ perms.deny, PermissionMatcher.matches_rule tool_name input r = false)
    (hallow : ∃ r ∈ perms.allow, PermissionMatcher.matches_rule tool_name input r = true)
    (havail : judge.available = true)
    (hjudged : (judge.judge tool_name input).1 = false) :
    (enforce_permissions tool_name input perms judge).1 = "ask" := by
  have h1 : (if tool_name = "Bash"
      then RegexDenylist.check (input.command.getD "") else none) = none := by
    by_cases h : tool_name = "Bash" <;> simp [h, hden]
  have h2 := find_none_of_all_false _ _ hdeny
  rcases find_some_of_exists _ _ hallow with ⟨y, hy⟩
  simp [enforce_permissions, h1, h2, hy, havail, hjudged]

/-- Witness for C4: `git status` under `Bash(git *)` with an unsafe judge
verdict escalates to `ask`. -/
theorem judge_unsafe_on_allow_yields_ask_witness :
    (∃ r ∈ ["Bash(git *)"],
      PermissionMatcher.matches_rule "Bash" { command := some "git status" } r = true) ∧
    (enforce_permissions "Bash" { command := some "git status" }
        { allow := ["Bash(git *)"] }
        ⟨true, fun _ _ => (false, "risky", "high")⟩).1 = "ask" :=
  ⟨by decide,
   judge_unsafe_on_allow_yields_ask "Bash" { command := some "git status" }
     { allow := ["Bash(git *)"] } ⟨true, fun _ _ => (false, "risky", "high")⟩
     (fun _ => by decide) (by decide) (by decide) (by decide) (by decide)⟩

/-- C6: for every call that passes the denylist (if Bash) and matches no
rule in any of the deny, allow or ask buckets, `enforce_permissions`
returns `ask` with the "no matching rule" default reason. -/
theorem no_matching_rule_defaults_to_ask
    (tool_name : String) (input : ToolInput) (perms : Permissions) (judge : LLMJudge)
    (hden : tool_name = "Bash" → RegexDenylist.check (input.command.getD "") = none)
    (hdeny : ∀ r ∈ perms.deny, PermissionMatcher.matches_rule tool_name input r = false)
    (hallow : ∀ r ∈ perms.allow, PermissionMatcher.matches_rule tool_name input r = false)
    (hask : ∀ r ∈ perms.ask, PermissionMatcher.matches_rule tool_name input r = false) :
    enforce_permissions tool_name input perms judge =
      ("ask", "No matching permission rule (default: ask)") := by
  have h1 : (if tool_name = "Bash"
      then RegexDenylist.check (input.command.getD "") else none) = none := by
    by_cases h : tool_name = "Bash" <;> simp [h, hden]
  have h2 := find_none_of_all_false _ _ hdeny
  have h3 := find_none_of_all_false _ _ hallow
  have h4 := find_none_of_all_false _ _ hask
  simp [enforce_permissions, h1, h2, h3, h4]

/-- Witness for C6: an unmatched command under a non-matching policy is
asked about. -/
theorem no_matching_rule_defaults_to_ask_witness :
    (∀ r ∈ ["Bash(git *)"],
      PermissionMatcher.matches_rule "Bash" { command := some "anything" } r = false) ∧
    enforce_permissions "Bash" { command := some "anything" }
        { allow := ["Bash(git *)"], deny := ["Edit"], ask := ["WebFetch"] }
        ⟨true, fun _ _ => (true, "ok", "low")⟩ =
      ("ask", "No matching permission rule (default: ask)") :=
  ⟨by decide,
   no_matching_rule_defaults_to_ask "Bash" { command := some "anything" }
     { allow := ["Bash(git *)"], deny := ["Edit"], ask := ["WebFetch"] }
     ⟨true, fun _ _ => (true, "ok", "low")⟩
     (fun _ => by decide) (by decide) (by decide) (by decide)⟩

/-- C7: merging settings documents is deterministic and, within each of
the allow, deny and ask buckets, places every rule of a higher-priority
document before every rule of a lower-priority one: the merged bucket is
the in-order concatenation of the documents' buckets (documents listed
highest-priority first, as `find_settings_files` produces them). -/
theorem settings_merge_priority_order (docs : List SettingsDoc) :
    SettingsLoader.load_permissions docs =
      { allow := (docs.map SettingsDoc.allow).flatten
        deny := (docs.map SettingsDoc.deny).flatten
        ask := (docs.map SettingsDoc.ask).flatten } := by
  induction docs with
  | nil => rfl
  | cons d ds ih =>
    unfold SettingsLoader.load_permissions at ih ⊢
    rw [List.reverse_cons, List.foldl_append, ih]
    simp

/-- C9: a rule whose parsed tool name is `WebSearch` matches every
WebSearch call, whether or not the rule carries a parenthesised pattern —
the pattern is ignored entirely for WebSearch. -/
theorem websearch_rule_matches_every_search
    (input : ToolInput) (rule : String) (pat : Option String)
    (hparse : PermissionMatcher.parse_rule rule = ("WebSearch", pat)) :
    PermissionMatcher.matches_rule "WebSearch" input rule = true := by
  cases pat with
  | none => simp [PermissionMatcher.matches_rule, hparse]
  | some p =>
    simp [PermissionMatcher.matches_rule, hparse,
      show ("WebSearch" : String) ≠ "Bash" from by decide,
      show ("WebSearch" : String) ≠ "WebFetch" from by decide]

/-- Witness for C9: the patterned rule `WebSearch(foo)` matches a search. -/
theorem websearch_rule_matches_every_search_witness :
    PermissionMatcher.parse_rule "WebSearch(foo)" = ("WebSearch", some "foo") ∧
    PermissionMatcher.matches_rule "WebSearch" {} "WebSearch(foo)" = true :=
  ⟨by decide,
   websearch_rule_matches_every_search {} "WebSearch(foo)" (some "foo") (by decide)⟩

/-- C10: for a tool name outside the recognized set (Bash, WebFetch,
WebSearch, Read, Edit, Write, Glob, Grep) — for example NotebookEdit — a
rule carrying a parenthesised pattern never matches any call of that tool,
while a bare rule naming the tool with no pattern matches every call. -/
theorem unknown_tool_patterned_rule_never_matches
    (tool : String) (input : ToolInput) (rule bare : String) (p : String)
    (htool : tool ∉ (["Bash", "WebFetch", "WebSearch", "Read", "Edit",
      "Write", "Glob", "Grep"] : List String))
    (hparse : PermissionMatcher.parse_rule rule = (tool, some p))
    (hbare : PermissionMatcher.parse_rule bare = (tool, none)) :
    PermissionMatcher.matches_rule tool input rule = false ∧
    PermissionMatcher.matches_rule tool input bare = true := by
  have h1 : tool ≠ "Bash" := fun h => htool (by simp [h])
  have h2 : tool ≠ "WebFetch" := fun h => htool (by simp [h])
  have h3 : tool ≠ "WebSearch" := fun h => htool (by simp [h])
  have h4 : tool ≠ "Read" := fun h => htool (by simp [h])
  have h5 : tool ≠ "Edit" := fun h => htool (by simp [h])
  have h6 : tool ≠ "Write" := fun h => htool (by simp [h])
  have h7 : tool ≠ "Glob" := fun h => htool (by simp [h])
  have h8 : tool ≠ "Grep" := fun h => htool (by simp [h])
  constructor
  · simp [PermissionMatcher.matches_rule, hparse, h1, h2, h3, h4, h5, h6, h7, h8]
  · simp [PermissionMatcher.matches_rule, hbare]

/-- Witness for C10: `NotebookEdit(x)` matches no NotebookEdit call but
the bare `NotebookEdit` rule does. -/
theorem unknown_tool_patterned_rule_never_matches_witness :
    ("NotebookEdit" : String) ∉ (["Bash", "WebFetch", "WebSearch", "Read", "Edit",
      "Write", "Glob", "Grep"] : List String) ∧
    PermissionMatcher.matches_rule "NotebookEdit" { new_source := some "x = 1" } "NotebookEdit(x)" = false ∧
    PermissionMatcher.matches_rule "NotebookEdit" { new_source := some "x = 1" } "NotebookEdit" = true :=
  ⟨by decide,
   unknown_tool_patterned_rule_never_matches "NotebookEdit"
     { new_source := some "x = 1" } "NotebookEdit(x)" "NotebookEdit" "x"
     (by decide) (by decide) (by decide)⟩

/-- C2 (spec-modelled): for every Write or NotebookEdit call that the
Content Safety Evaluator flags (executable content containing a
catastrophic pattern or a command-substitution/piping-to-shell idiom), if
the call passes the deny rules and matches some allow rule, the spec's
decision pipeline returns `ask` — not `deny` and not `allow`. -/
theorem content_scanner_escalates_allow_to_ask
    (tool : String) (input : ToolInput) (perms : Permissions) (judge : LLMJudge)
    (htool : tool = "Write" ∨ tool = "NotebookEdit")
    (hflag : content_flags tool input = true)
    (hdeny : ∀ r ∈ perms.deny, PermissionMatcher.matches_rule tool input r = false)
    (hallow : ∃ r ∈ perms.allow, PermissionMatcher.matches_rule tool input r = true) :
    (enforce_permissions_spec tool input perms judge).1 = "ask" := by
  have h1 : (if tool = "Bash"
      then RegexDenylist.check (input.command.getD "") else none) = none := by
    rcases htool with h | h <;> subst h
    · simp [show ("Write" : String) ≠ "Bash" from by decide]
    · simp [show ("NotebookEdit" : String) ≠ "Bash" from by decide]
  have h2 := find_none_of_all_false _ _ hdeny
  rcases find_some_of_exists _ _ hallow with ⟨y, hy⟩
  simp [enforce_permissions_spec, h1, h2, hy, hflag]

/-- Witness for C2: writing `cleanup.sh` containing `rm -rf /` under an
allow rule for Write escalates to `ask` even with a safe judge verdict. -/
theorem content_scanner_escalates_allow_to_ask_witness :
    content_flags "Write"
      { file_path := some "/tmp/cleanup.sh",
        content := some "#!/bin/bash\nrm -rf /\necho done" } = true ∧
    (enforce_permissions_spec "Write"
      { file_path := some "/tmp/cleanup.sh",
        content := some "#!/bin/bash\nrm -rf /\necho done" }
      { allow := ["Write"] } ⟨true, fun _ _ => (true, "ok", "low")⟩).1 = "ask" :=
  ⟨by decide,
   content_scanner_escalates_allow_to_ask "Write"
     { file_path := some "/tmp/cleanup.sh",
       content := some "#!/bin/bash\nrm -rf /\necho done" }
     { allow := ["Write"] } ⟨true, fun _ _ => (true, "ok", "low")⟩
     (Or.inl rfl) (by decide) (by decide) (by decide)⟩

/-- A list is a prefix of itself followed by anything. -/
theorem startsWithChars_append (l r : List Char) :
    startsWithChars l (l ++ r) = true := by
  induction l with
  | nil => rfl
  | cons c t ih => simp [startsWithChars, ih]

/-- C3, counterexample: the claim says a `WebFetch(domain:S)` rule matches
exactly when `S` is a substring of the host component of the requested
URL.  For the rule `WebFetch(domain:github.com)` and the URL
`https://evil.com/github.com` the source matches (the suffix occurs in the
URL's path), although `github.com` is not a substring of the host
`evil.com` — the source tests containment in the whole URL string, not in
its host. -/
theorem webfetch_domain_counterexample :
    PermissionMatcher.matches_rule "WebFetch"
        { url := some "https://evil.com/github.com" }
        "WebFetch(domain:github.com)" = true ∧
    spec_url_host "https://evil.com/github.com" = "evil.com" ∧
    containsChars "github.com".data "evil.com".data = false := by
  refine ⟨by decide, by decide, by decide⟩

/-- C3, amended: a `WebFetch(domain:S)` rule matches a WebFetch call
exactly when `S` is a substring of the whole requested URL string (not of
its host component alone); a WebFetch rule whose pattern does not start
with `domain:` never matches. -/
theorem webfetch_domain_matches_url_substring
    (S url : String) (input : ToolInput) (rule other : String) (p : String)
    (hurl : input.url = some url)
    (hparse : PermissionMatcher.parse_rule rule = ("WebFetch", some ("domain:" ++ S)))
    (hother : PermissionMatcher.parse_rule other = ("WebFetch", some p))
    (hshape : startsWithChars "domain:".data p.data = false) :
    PermissionMatcher.matches_rule "WebFetch" input rule =
      containsChars S.data url.data ∧
    PermissionMatcher.matches_rule "WebFetch" input other = false := by
  have hd : ("domain:" ++ S).data = "domain:".data ++ S.data := String.data_append _ _
  have hdrop : ("domain:" ++ S).data.drop 7 = S.data := by
    rw [hd]
    rfl
  have hpre : startsWithChars "domain:".data ("domain:" ++ S).data = true := by
    rw [hd]
    exact startsWithChars_append _ _
  constructor
  · simp [PermissionMatcher.matches_rule, hparse,
      show ("WebFetch" : String) ≠ "Bash" from by decide,
      hpre, hdrop, hurl]
    intro _
    simpa using startsWithChars_append "domain:".data S.data
  · simp [PermissionMatcher.matches_rule, hother,
      show ("WebFetch" : String) ≠ "Bash" from by decide,
      hshape]

/-- Witness for the amended C3: `WebFetch(domain:github.com)` against
`https://github.com/foo` matches, and a non-`domain:` pattern never does. -/
theorem webfetch_domain_matches_url_substring_witness :
    PermissionMatcher.parse_rule "WebFetch(domain:github.com)" =
      ("WebFetch", some ("domain:" ++ "github.com")) ∧
    PermissionMatcher.matches_rule "WebFetch" { url := some "https://github.com/foo" }
        "WebFetch(domain:github.com)" =
      containsChars "github.com".data "https://github.com/foo".data ∧
    PermissionMatcher.matches_rule "WebFetch" { url := some "https://github.com/foo" }
        "WebFetch(raw)" = false :=
  ⟨by decide,
   webfetch_domain_matches_url_substring "github.com" "https://github.com/foo"
     { url := some "https://github.com/foo" } "WebFetch(domain:github.com)"
     "WebFetch(raw)" "raw" rfl (by decide) (by decide) (by decide)⟩

/-- Star-free pattern segments translate to literal tokens. -/
theorem globTokens_no_star (l r : List Char) (h : ∀ c ∈ l, c ≠ '*') :
    globTokens (l ++ r) = l.map GTok.lit ++ globTokens r := by
  induction l with
  | nil => simp
  | cons c t ih =>
    simp [globTokens, h c (List.mem_cons_self c t),
      ih fun x hx => h x (List.mem_cons_of_mem _ hx)]

/-- Matching strips a common literal prefix. -/
theorem globMatch_strip_lits (l : List Char) (ps : List GTok) (s : List Char) :
    globMatch (l.map GTok.lit ++ ps) (l ++ s) = globMatch ps s := by
  induction l with
  | nil => simp
  | cons c t ih => simp [globMatch, ih]

/-- A single trailing wildcard accepts exactly the newline-free strings
(Python's `.` does not cross newlines). -/
theorem globMatch_single_star (s : List Char) :
    globMatch [GTok.star] s = s.all (fun c => c != '\n') := by
  induction s with
  | nil => rfl
  | cons c t ih =>
    by_cases h : c = '\n'
    · subst h
      simp [globMatch, suffixesNoNL]
    · simp only [globMatch, suffixesNoNL, if_neg h, List.any_cons, List.all_cons]
      simp only [globMatch] at ih
      simp [ih, h]

/-- The trailing-newline disjunct is off when the command does not end in
a newline. -/
theorem globEndNL_false_of_getLast_ne (toks : List GTok) (cmd : List Char)
    (h : cmd.getLast? ≠ some '\n') : globEndNL toks cmd = false := by
  unfold globEndNL
  cases hrev : cmd.reverse with
  | nil => rfl
  | cons c rest =>
    have hc : cmd.getLast? = some c := by
      have hl : cmd = rest.reverse ++ [c] := by
        rw [← List.reverse_reverse cmd, hrev]
        simp
      rw [hl, List.getLast?_concat]
    have hcne : ¬(c = '\n') := fun hh => h (by rw [hc, hh])
    simp [hcne]

/-- The trailing-newline disjunct is off when the command ends in a
nonempty newline-free segment. -/
theorem globEndNL_false_of_no_nl (toks : List GTok) (x s : List Char)
    (hs : s ≠ []) (h : ∀ d ∈ s, d ≠ '\n') :
    globEndNL toks (x ++ s) = false := by
  apply globEndNL_false_of_getLast_ne
  have h1 : (x ++ s).getLast? = s.getLast? := by
    rw [List.getLast?_append]
    cases hg : s.getLast? with
    | none => exact absurd (by simpa using hg) hs
    | some a => rfl
  rw [h1]
  cases hg : s.getLast? with
  | none => simp
  | some a =>
    have ha : a ∈ s := by
      have h2 : a ∈ s.getLast? := by rw [hg]; rfl
      rcases List.mem_getLast?_eq_getLast h2 with ⟨hne, rfl⟩
      exact List.getLast_mem hne
    simp [h a ha]

/-- A pattern ending in a space then a star is unchanged by colon
normalization. -/
theorem normalize_space_star (x : List Char) :
    PermissionMatcher.normalize_bash_pattern (x ++ [' ', '*']) = x ++ [' ', '*'] := by
  unfold PermissionMatcher.normalize_bash_pattern
  have hrev : (x ++ [' ', '*']).reverse = '*' :: ' ' :: x.reverse := by simp
  rw [hrev]
  simp

/-- A pattern ending in a star whose stem does not end in a colon is
unchanged by colon normalization. -/
theorem normalize_star_no_colon (x : List Char) (h : x.getLast? ≠ some ':') :
    PermissionMatcher.normalize_bash_pattern (x ++ ['*']) = x ++ ['*'] := by
  unfold PermissionMatcher.normalize_bash_pattern
  have hrev : (x ++ ['*']).reverse = '*' :: x.reverse := by simp
  rw [hrev]
  cases hx : x.reverse with
  | nil => simp
  | cons c2 rest =>
    have hc : x.getLast? = some c2 := by
      have hl : x = rest.reverse ++ [c2] := by
        rw [← List.reverse_reverse x, hx]
        simp
      rw [hl, List.getLast?_concat]
    have hne : ¬(c2 = ':') := fun hh => h (by rw [hc, hh])
    simp [hne]

/-- C8, counterexample: the claim says pattern `"X *"` matches every
command of the form `"X <anything>"`; with `X := "ls"` and
`<anything> := "a\nb"` the source does not match, because the translated
`.*` cannot cross the newline and `$` cannot match before an interior
newline. -/
theorem bash_space_star_newline_counterexample :
    PermissionMatcher.bash_pattern_matches "ls a\nb" "ls *" = false := by decide

/-- C8, amended: for a prefix `X` containing no `*` and not ending in `:`
(so the deprecated colon form is not produced), pattern `"X *"` matches
every command `"X <anything>"` whose tail contains no newline, and no
command `"X<suffix>"` whose suffix does not start with a space, while
pattern `"X*"` matches both forms (again for newline-free tails). -/
theorem bash_space_star_word_boundary
    (X anything suffix : String) (c : Char) (t : List Char)
    (hX : ∀ d ∈ X.data, d ≠ '*')
    (hcolon : X.data.getLast? ≠ some ':')
    (hany : ∀ d ∈ anything.data, d ≠ '\n')
    (hsuf : ∀ d ∈ suffix.data, d ≠ '\n')
    (hshape : suffix.data = c :: t)
    (hc : c ≠ ' ') :
    PermissionMatcher.bash_pattern_matches (X ++ " " ++ anything) (X ++ " *") = true ∧
    PermissionMatcher.bash_pattern_matches (X ++ suffix) (X ++ " *") = false ∧
    PermissionMatcher.bash_pattern_matches (X ++ " " ++ anything) (X ++ "*") = true ∧
    PermissionMatcher.bash_pattern_matches (X ++ suffix) (X ++ "*") = true := by
  have hd1 : (X ++ " " ++ anything).data = X.data ++ (' ' :: anything.data) := by
    rw [String.data_append, String.data_append]
    simp [show (" " : String).data = [' '] from rfl]
  have hd2 : (X ++ suffix).data = X.data ++ (c :: t) := by
    rw [String.data_append, hshape]
  have hp1 : (X ++ " *").data = X.data ++ [' ', '*'] := by
    rw [String.data_append]
  have hp2 : (X ++ "*").data = X.data ++ ['*'] := by
    rw [String.data_append]
  have htoks1 : globTokens (X.data ++ [' ', '*']) =
      X.data.map GTok.lit ++ [GTok.lit ' ', GTok.star] := by
    rw [globTokens_no_star _ _ hX]
    rfl
  have htoks2 : globTokens (X.data ++ ['*']) =
      X.data.map GTok.lit ++ [GTok.star] := by
    rw [globTokens_no_star _ _ hX]
    rfl
  have hne1 : ¬(X.data ++ [' ', '*'] = ['*']) := by
    intro h
    have := congrArg List.length h
    simp at this
  have hall_any : anything.data.all (fun d => d != '\n') = true := by
    simp only [List.all_eq_true, bne_iff_ne, ne_eq]
    exact hany
  have hall_suf : (c :: t).all (fun d => d != '\n') = true := by
    simp only [List.all_eq_true, bne_iff_ne, ne_eq]
    rw [← hshape]
    exact hsuf
  refine ⟨?_, ?_, ?_, ?_⟩
  · unfold PermissionMatcher.bash_pattern_matches PermissionMatcher.bash_pattern_matches_list
    rw [hp1, hd1, normalize_space_star, if_neg hne1, htoks1]
    simp only [globMatch_strip_lits]
    have hfirst : globMatch [GTok.lit ' ', GTok.star] (' ' :: anything.data) = true := by
      have he : globMatch [GTok.lit ' ', GTok.star] (' ' :: anything.data) =
          (' ' == ' ' && globMatch [GTok.star] anything.data) := rfl
      rw [he, globMatch_single_star, hall_any]
      simp
    rw [hfirst]
    simp
  · unfold PermissionMatcher.bash_pattern_matches PermissionMatcher.bash_pattern_matches_list
    rw [hp1, hd2, normalize_space_star, if_neg hne1, htoks1]
    simp only [globMatch_strip_lits]
    have hend : globEndNL (X.data.map GTok.lit ++ [GTok.lit ' ', GTok.star])
        (X.data ++ (c :: t)) = false := by
      apply globEndNL_false_of_no_nl
      · simp
      · rw [← hshape]
        exact hsuf
    rw [hend]
    simp [globMatch, hc]
  · unfold PermissionMatcher.bash_pattern_matches PermissionMatcher.bash_pattern_matches_list
    rw [hp2, hd1, normalize_star_no_colon _ hcolon]
    rcases hX0 : X.data with _ | ⟨x0, xs⟩
    · simp [globTokens, globMatch, suffixesNoNL]
    · rw [← hX0]
      have hne2 : ¬(X.data ++ ['*'] = ['*']) := by
        intro h
        have := congrArg List.length h
        rw [hX0] at this
        simp at this
      rw [if_neg hne2, htoks2]
      simp only [globMatch_strip_lits]
      simp [globMatch_single_star, hall_any]
  · unfold PermissionMatcher.bash_pattern_matches PermissionMatcher.bash_pattern_matches_list
    rw [hp2, hd2, normalize_star_no_colon _ hcolon]
    rcases hX0 : X.data with _ | ⟨x0, xs⟩
    · simp [globTokens, globMatch, suffixesNoNL]
    · rw [← hX0]
      have hne2 : ¬(X.data ++ ['*'] = ['*']) := by
        intro h
        have := congrArg List.length h
        rw [hX0] at this
        simp at this
      rw [if_neg hne2, htoks2]
      simp only [globMatch_strip_lits]
      simp [globMatch_single_star, hall_suf]

/-- Witness for the amended C8: `X := "git"`, tail `"status"`, suffix
`"hub"`. -/
theorem bash_space_star_word_boundary_witness :
    (∀ d ∈ ("git" : String).data, d ≠ '*') ∧
    PermissionMatcher.bash_pattern_matches ("git" ++ " " ++ "status") ("git" ++ " *") = true ∧
    PermissionMatcher.bash_pattern_matches ("git" ++ "hub") ("git" ++ " *") = false ∧
    PermissionMatcher.bash_pattern_matches ("git" ++ " " ++ "status") ("git" ++ "*") = true ∧
    PermissionMatcher.bash_pattern_matches ("git" ++ "hub") ("git" ++ "*") = true :=
  ⟨by decide,
   bash_space_star_word_boundary "git" "status" "hub" 'h' ['u', 'b']
     (by decide) (by decide) (by decide) (by decide) (by decide) (by decide)⟩
